import Mathlib

/-!
Verification development for the Jerry command resilience / orchestration layer:
shallow embedding of the security service (bridge authenticator, command
validator, command queue), the system monitor (alert rules), and the workflow
engine (workflow execution, credential rotation manager), together with
theorems settling the specification claims.

Machine conventions: JavaScript numbers that hold millisecond timestamps and
metric values are modelled as `Int`; the one fractional computation (the
cooldown penalty `remaining / 1000` in credential scoring) is modelled in `ℚ`.
String-union types of the source (such as completed / partial / failed)
are modelled either as Lean inductives or as `String` values, as noted.
-/

namespace Jerry

/-- Substring test on character lists: `hasSub s pat` is true iff `pat` occurs
contiguously inside `s`.  This models JavaScript `String.prototype.includes`. -/
def hasSub (s pat : List Char) : Bool :=
  match s with
  | [] => pat.isEmpty
  | _ :: rest => pat.isPrefixOf s || hasSub rest pat

/-- Definition: `strHas s pat` models `s.includes(pat)` on JavaScript strings. -/
def strHas (s pat : String) : Bool :=
  hasSub s.toList pat.toList

/-- Character-wise lowercasing, modelling `String.prototype.toLowerCase`
on the ASCII range (a structural equivalent of `String.toLower`). -/
def strToLower (s : String) : String :=
  ⟨s.data.map Char.toLower⟩

-- ===================================================================
-- CommandValidator  (src/services/security.ts, class CommandValidator)
-- ===================================================================

namespace CommandValidator

/-- Definition: `DANGEROUS_ACTIONS` from the source: actions flagged as inherently risky. -/
def DANGEROUS_ACTIONS : List String :=
  ["shutdown", "restart", "delete_file", "delete_folder",
   "format", "kill_process", "shell_execute", "logoff"]

/-- Definition: `BLOCKED_PATTERNS` from the source: deny-listed destructive substrings. -/
def BLOCKED_PATTERNS : List String :=
  ["format c:", "rm -rf /", "del /s /q c:", "rd /s /q c:",
   "reg delete hklm", "reg delete hkcu"]

/-- Result record of `CommandValidator.validate`. -/
structure ValidationResult where
  valid : Bool
  message : String
  dangerous : Bool
deriving DecidableEq, Repr

/-- The combined lowercased string `action target payload` built by `validate`
(the source joins the three lowercased parts with single spaces). -/
def combined (action target payload : Option String) : String :=
  strToLower (action.getD "") ++ " " ++ strToLower (target.getD "") ++ " "
    ++ strToLower (payload.getD "")

/-- Definition: `CommandValidator.validate`: first rejects (with `dangerous := true`) if the
combined lowercased action/target/payload contains a deny-listed pattern, then
rejects (with `dangerous := false`) if the action is empty, otherwise accepts
and flags `dangerous` by membership of the action in `DANGEROUS_ACTIONS`.
The blocked message in the source wraps the pattern in single quotes; the
quotes are dropped here, the rest of the message is verbatim. -/
def validate (action target payload : Option String) : ValidationResult :=
  match BLOCKED_PATTERNS.find?
      (fun b => strHas (combined action target payload) b) with
  | some b =>
      { valid := false
        message := "BLOCKED: " ++ b ++ " is a prohibited operation."
        dangerous := true }
  | none =>
      if strToLower (action.getD "") = "" then
        { valid := false, message := "Missing action field.", dangerous := false }
      else
        { valid := true, message := "OK"
          dangerous := DANGEROUS_ACTIONS.contains (strToLower (action.getD "")) }

end CommandValidator

-- ===================================================================
-- BridgeAuthenticator  (src/services/security.ts, class BridgeAuthenticator)
-- ===================================================================

/-- Dynamic JavaScript values carried in a command record. -/
inductive JVal where
  | str (s : String)
  | num (n : Int)
deriving DecidableEq, Repr

/-- A JavaScript object is modelled as an association list with distinct keys,
in insertion order; lookup takes the (unique) binding of a key. -/
abbrev JObj := List (String × JVal)

/-- Key update with JavaScript object-spread semantics: if the key already
exists its value is replaced in place, otherwise the binding is appended. -/
def setField : JObj → String → JVal → JObj
  | [], k, v => [(k, v)]
  | (k', v') :: rest, k, v =>
      if k' = k then (k, v) :: rest else (k', v') :: setField rest k v

namespace BridgeAuthenticator

/-- JavaScript string truthiness: the empty string is falsy. -/
def truthy : Option String → Option String
  | none => none
  | some s => if s = "" then none else some s

/-- The constructor's token resolution: `token || envToken`, throwing (modelled
as `none`) when both are falsy. -/
def mkToken (token envToken : Option String) : Option String :=
  match truthy token with
  | some t => some t
  | none => truthy envToken

/-- One lowercase hexadecimal digit, as produced by `Number.toString(16)`. -/
def hexDigit (n : Nat) : Char :=
  if n < 10 then Char.ofNat (48 + n) else Char.ofNat (87 + n)

/-- One byte rendered as exactly two lowercase hex characters
(`b.toString(16).padStart(2, '0')`). -/
def byteToHex (b : Fin 256) : List Char :=
  [hexDigit (b.val / 16), hexDigit (b.val % 16)]

/-- Definition: `generateNonce`: the 16 random bytes drawn for a call, hex-encoded and
joined.  The random source itself is environmental; the byte vector is the
explicit input here. -/
def generateNonce (bytes : List (Fin 256)) : String :=
  ⟨(bytes.map byteToHex).flatten⟩

/-- Definition: `wrapCommand`: object-spread of the command with the three authentication
fields appended (`auth_token`, `timestamp`, `nonce`), later keys overriding
earlier ones exactly as the spread does. -/
def wrapCommand (token : String) (nowMs : Int) (bytes : List (Fin 256))
    (command : JObj) : JObj :=
  setField (setField (setField command "auth_token" (.str token))
    "timestamp" (.num nowMs)) "nonce" (.str (generateNonce bytes))

end BridgeAuthenticator

-- ===================================================================
-- CommandQueue  (src/services/ command queue service, class CommandQueue)
-- ===================================================================

/-- Priority tiers of a queued command. -/
inductive Priority where
  | critical
  | high
  | normal
  | low
deriving DecidableEq, Repr

/-- The `priorityOrder` table used by `enqueue`. -/
def priorityOrder : Priority → Nat
  | .critical => 0
  | .high => 1
  | .normal => 2
  | .low => 3

/-- Lifecycle status of a queued command. -/
inductive QStatus where
  | queued
  | executing
  | completed
  | failed
deriving DecidableEq, Repr

/-- A `QueuedCommand` entry.  The generated id string
`cmd_<timestamp>_<random>` is abstracted to a numeric id supplied by the
caller (the driver below supplies a fresh one per call); the optional
`onComplete`/`onError` callbacks are modelled by presence flags, and callback
invocations are reported in the returned effect list. -/
structure QueuedCommand where
  id : Nat
  command : JObj
  priority : Priority
  addedAt : Int
  attempts : Nat
  maxRetries : Nat
  status : QStatus
  hasOnComplete : Bool
  hasOnError : Bool
deriving DecidableEq, Repr

namespace CommandQueue

/-- Definition: `maxSize` of the queue. -/
def maxSize : Nat := 100

/-- The overflow notice passed to an evicted item's `onError`. -/
def overflowMsg : String := "Queue overflow: command dropped"

/-- Priority insertion: the source computes
`findIndex(q => priorityOrder[q.priority] > priorityOrder[priority])` and
splices the item there (or pushes it at the end when no such index exists);
this recursion inserts at exactly that first position. -/
def insertByPriority (item : QueuedCommand) : List QueuedCommand → List QueuedCommand
  | [] => [item]
  | q :: rest =>
      if priorityOrder q.priority > priorityOrder item.priority then
        item :: q :: rest
      else
        q :: insertByPriority item rest

/-- Result of one `enqueue` call: the created item, the queue afterwards, and
the `(id, message)` list of `onError` invocations performed by the call. -/
structure EnqueueResult where
  item : QueuedCommand
  queue : List QueuedCommand
  errorCalls : List (Nat × String)
deriving DecidableEq, Repr

/-- The `QueuedCommand` record built at the top of `enqueue`. -/
def mkQueued (command : JObj) (priority : Priority) (maxRetries : Nat)
    (hasOnComplete hasOnError : Bool) (idNum : Nat) (now : Int) :
    QueuedCommand :=
  { id := idNum, command := command, priority := priority, addedAt := now
    attempts := 0, maxRetries := maxRetries, status := .queued
    hasOnComplete := hasOnComplete, hasOnError := hasOnError }

/-- Definition: `CommandQueue.enqueue`: builds the new item, inserts it in priority order,
then trims the tail (`pop`) if the queue exceeds `maxSize`, invoking the
removed item's `onError` with the overflow notice when present. -/
def enqueue (q : List QueuedCommand) (command : JObj) (priority : Priority)
    (maxRetries : Nat) (hasOnComplete hasOnError : Bool)
    (idNum : Nat) (now : Int) : EnqueueResult :=
  let item := mkQueued command priority maxRetries hasOnComplete hasOnError
    idNum now
  let q1 := insertByPriority item q
  if q1.length > maxSize then
    match q1.getLast? with
    | some removed =>
        { item := item, queue := q1.dropLast
          errorCalls := if removed.hasOnError then [(removed.id, overflowMsg)] else [] }
    | none => { item := item, queue := q1, errorCalls := [] }
  else
    { item := item, queue := q1, errorCalls := [] }

/-- Result record of `getStatus`. -/
structure QueueStatus where
  size : Nat
  pending : Nat
  executing : Nat
  byPriority : Priority → Nat

/-- Definition: `CommandQueue.getStatus`: totals plus a per-priority breakdown of
`queued`-state items. -/
def getStatus (q : List QueuedCommand) : QueueStatus :=
  { size := q.length
    pending := (q.filter (fun c => c.status == QStatus.queued)).length
    executing := (q.filter (fun c => c.status == QStatus.executing)).length
    byPriority := fun p =>
      (q.filter (fun c => c.status == QStatus.queued && c.priority == p)).length }

/-- The order in which `flush` attempts delivery: the snapshot
`[...this.queue.filter(q => q.status === queued)]` taken in queue order. -/
def flushOrder (q : List QueuedCommand) : List QueuedCommand :=
  q.filter (fun c => c.status == QStatus.queued)

/-- One request of an enqueue sequence (arguments of a single `enqueue` call). -/
structure EnqReq where
  command : JObj
  priority : Priority
  maxRetries : Nat
  hasOnComplete : Bool
  hasOnError : Bool
  now : Int

/-- Driver for a sequence of `enqueue` calls starting from queue `q`,
assigning ids from a fresh counter `n` (ids of distinct calls are distinct,
matching the uniqueness of the generated id strings). -/
def runEnqueuesAux : List EnqReq → Nat → List QueuedCommand → List QueuedCommand
  | [], _, q => q
  | r :: rs, n, q =>
      runEnqueuesAux rs (n + 1)
        (enqueue q r.command r.priority r.maxRetries
          r.hasOnComplete r.hasOnError n r.now).queue

/-- A sequence of `enqueue` calls on an initially empty queue. -/
def runEnqueues (rs : List EnqReq) : List QueuedCommand :=
  runEnqueuesAux rs 0 []

/-- Strict stable ordering: earlier queue entries have strictly higher
priority, or equal priority and an earlier (smaller) id. -/
def StrictOrd (a b : QueuedCommand) : Prop :=
  priorityOrder a.priority < priorityOrder b.priority ∨
    (priorityOrder a.priority = priorityOrder b.priority ∧ a.id < b.id)

/-- Weak priority ordering (priority tiers non-decreasing along the queue). -/
def PriOrd (a b : QueuedCommand) : Prop :=
  priorityOrder a.priority ≤ priorityOrder b.priority

end CommandQueue

-- ===================================================================
-- SystemMonitorService  (src/services/ system monitor, class SystemMonitorService)
-- ===================================================================

/-- Metric selector of an alert rule. -/
inductive Metric where
  | cpu
  | memory
  | disk
  | battery
deriving DecidableEq, Repr

/-- Threshold direction of an alert rule. -/
inductive Direction where
  | above
  | below
deriving DecidableEq, Repr

/-- A system snapshot, projected onto the percent fields the alert logic and
history read (`cpu.percent`, `memory.percent`, `disk.percent`,
`battery.percent`); the battery percent can be `null`.  The remaining
telemetry payload (cores, frequencies, network counters, uptime, …) is
opaque to every operation modelled here. -/
structure SystemSnapshot where
  cpu : Int
  memory : Int
  disk : Int
  battery : Option Int
deriving DecidableEq, Repr

/-- An `AlertRule` record. -/
structure AlertRule where
  id : String
  metric : Metric
  threshold : Int
  direction : Direction
  message : String
  cooldownMs : Int
  lastTriggered : Int
  enabled : Bool
deriving DecidableEq, Repr

namespace SystemMonitorService

/-- The metric value a rule reads from a snapshot (the `switch` in
`checkAlerts`); only the battery percent can be absent. -/
def metricValue (s : SystemSnapshot) : Metric → Option Int
  | .cpu => some s.cpu
  | .memory => some s.memory
  | .disk => some s.disk
  | .battery => s.battery

/-- The threshold comparison of `checkAlerts`:
`above`: value > threshold, `below`: value < threshold. -/
def passes (v : Int) (r : AlertRule) : Bool :=
  match r.direction with
  | .above => v > r.threshold
  | .below => v < r.threshold

/-- The body of the `checkAlerts` loop for one rule: skips disabled rules and
rules still inside their cooldown window; otherwise reads the metric and, on a
threshold pass, advances `lastTriggered` to `now` and reports one callback
invocation `(rule id, value)`. -/
def checkRule (snap : SystemSnapshot) (now : Int) (r : AlertRule) :
    AlertRule × Option (String × Int) :=
  if ¬r.enabled then (r, none)
  else if now - r.lastTriggered < r.cooldownMs then (r, none)
  else
    match metricValue snap r.metric with
    | none => (r, none)
    | some v =>
        if passes v r then ({ r with lastTriggered := now }, some (r.id, v))
        else (r, none)

/-- Definition: `checkAlerts`: returns unchanged with no invocations when no alert
callback is registered; otherwise applies `checkRule` to every rule in order,
collecting the callback invocations. -/
def checkAlerts (hasCallback : Bool) (rules : List AlertRule)
    (snap : SystemSnapshot) (now : Int) : List AlertRule × List (String × Int) :=
  if hasCallback then
    (rules.map (fun r => (checkRule snap now r).1),
     rules.filterMap (fun r => (checkRule snap now r).2))
  else (rules, [])

/-- Definition: `maxHistory` of the snapshot ring. -/
def maxHistory : Nat := 120

/-- Monitor state: the rolling history, the last snapshot, the alert rules and
whether an alert callback is registered.  The short-TTL read cache of the
source is pure memoisation for `getLatest`/`getStatusReport` and is not
modelled (no claim observes it). -/
structure MonitorState where
  history : List SystemSnapshot
  lastSnapshot : Option SystemSnapshot
  alertRules : List AlertRule
  hasCallback : Bool
deriving Repr

/-- The default alert rules installed by the constructor. -/
def defaultAlertRules : List AlertRule :=
  [{ id := "cpu_high", metric := .cpu, threshold := 90, direction := .above
     message := "CPU usage critical: {value}%", cooldownMs := 60000
     lastTriggered := 0, enabled := true },
   { id := "memory_high", metric := .memory, threshold := 85, direction := .above
     message := "Memory usage high: {value}%", cooldownMs := 60000
     lastTriggered := 0, enabled := true },
   { id := "disk_high", metric := .disk, threshold := 90, direction := .above
     message := "Disk usage critical: {value}%", cooldownMs := 300000
     lastTriggered := 0, enabled := true },
   { id := "battery_low", metric := .battery, threshold := 15, direction := .below
     message := "Battery critically low: {value}%", cooldownMs := 120000
     lastTriggered := 0, enabled := true }]

/-- Definition: `processSnapshot`: stores the snapshot, appends it to the bounded history
(oldest shifted out past `maxHistory`), then runs `checkAlerts`; returns the
new state and the list of alert-callback invocations. -/
def processSnapshot (st : MonitorState) (snap : SystemSnapshot) (now : Int) :
    MonitorState × List (String × Int) :=
  let h1 := st.history ++ [snap]
  let h2 := if h1.length > maxHistory then h1.tail else h1
  let res := checkAlerts st.hasCallback st.alertRules snap now
  ({ st with history := h2, lastSnapshot := some snap, alertRules := res.1 },
   res.2)

end SystemMonitorService

-- ===================================================================
-- WorkflowEngine  (src/services/workflowEngine.ts, class WorkflowEngine)
-- ===================================================================

/-- Condition type of a workflow step. -/
inductive CondType where
  | always
  | time_after
  | time_before
  | bridge_active
deriving DecidableEq, Repr

/-- A step condition; the `HH:MM` string value of the source is carried
already split into an `(hour, minute)` pair. -/
structure StepCond where
  type : CondType
  value : Option (Nat × Nat)
deriving DecidableEq, Repr

/-- Failure policy of a workflow step. -/
inductive FailPolicy where
  | skip
  | abort
  | retry
deriving DecidableEq, Repr

/-- A `WorkflowStep`.  `delayMs` only paces execution in real time and does
not affect any recorded outcome. -/
structure WorkflowStep where
  id : String
  action : String
  target : Option String
  payload : Option String
  extra : Option String
  delayMs : Option Nat
  condition : Option StepCond
  onFailure : Option FailPolicy
  retries : Option Nat
deriving DecidableEq, Repr

/-- A `Workflow`.  The `schedule` record is consulted only by the scheduler
tick, which no claim observes, and is left out; `lastRun` is the ISO timestamp
string set after a run. -/
structure Workflow where
  id : String
  name : String
  steps : List WorkflowStep
  trigger : String
  enabled : Bool
  lastRun : Option String
  runCount : Nat
deriving DecidableEq, Repr

/-- One recorded step outcome.  `status` is one of the source's literals
`"success"`, `"failed"`, `"skipped"`; the wall-clock `duration` and the result
message, which no claim reads, are not carried. -/
structure StepRes where
  stepId : String
  action : String
  status : String
deriving DecidableEq, Repr

/-- Overall result of a workflow run; `status` is one of the source's
literals. -/
structure WorkflowResult where
  workflowId : String
  workflowName : String
  startedAt : String
  completedAt : String
  steps : List StepRes
  status : String
deriving DecidableEq, Repr

namespace WorkflowEngine

/-- Definition: `evaluateCondition` at local time `h:m` (the source reads `new Date()`):
`always` and `bridge_active` are true, the time comparisons match the current
hour/minute against the condition value, and a missing value is true. -/
def evaluateCondition (h m : Nat) : Option StepCond → Bool
  | none => true
  | some c =>
      match c.type with
      | .always => true
      | .time_after =>
          match c.value with
          | some (ch, cm) => decide (h > ch ∨ (h = ch ∧ m ≥ cm))
          | none => true
      | .time_before =>
          match c.value with
          | some (ch, cm) => decide (h < ch ∨ (h = ch ∧ m < cm))
          | none => true
      | .bridge_active => true

/-- Definition: `step.retries || 1`: JavaScript `||` takes 1 when `retries` is absent or
zero. -/
def maxAttempts (s : WorkflowStep) : Nat :=
  match s.retries with
  | some r => if r = 0 then 1 else r
  | none => 1

/-- Whether the attempt loop of step number `idx` ends in success: the loop
runs attempts `0, 1, …` until one succeeds or `maxAttempts` are exhausted, so
the final `success` flag is true iff some attempt among the first
`maxAttempts` succeeds.  `exec idx a` is the outcome the executor returns for
attempt `a` of step `idx` (false both for an error-status reply and a thrown
error, which the source treats alike). -/
def stepSuccess (exec : Nat → Nat → Bool) (idx : Nat) (s : WorkflowStep) : Bool :=
  (List.range (maxAttempts s)).any (fun a => exec idx a)

/-- The step loop of `executeWorkflow`: a step whose condition fails is
recorded `skipped`; otherwise the attempt loop runs and the step is recorded
`success` or `failed`; a failed step with `onFailure = abort` stops the loop
(`break`), so nothing after it is recorded. -/
def runSteps (exec : Nat → Nat → Bool) (h m : Nat) :
    List WorkflowStep → Nat → List StepRes
  | [], _ => []
  | s :: rest, idx =>
      if s.condition.isSome ∧ ¬evaluateCondition h m s.condition then
        { stepId := s.id, action := s.action, status := "skipped" }
          :: runSteps exec h m rest (idx + 1)
      else
        let succ := stepSuccess exec idx s
        let r : StepRes :=
          { stepId := s.id, action := s.action
            status := if succ then "success" else "failed" }
        if ¬succ ∧ s.onFailure = some .abort then [r]
        else r :: runSteps exec h m rest (idx + 1)

/-- Definition: `executeWorkflow` on an already-resolved workflow (the id/name lookup of
the source precedes this).  Returns `none` (the source's `null`) when no
executor is registered or the workflow is disabled; otherwise runs the steps,
bumps `runCount`, sets `lastRun`, and computes the overall status: `completed`
when every recorded step is success-or-skipped, else `failed` when every
recorded step failed, else `partial`.  `startTS`/`endTS` stand for the two
`new Date().toISOString()` reads. -/
def executeWorkflow (hasExecutor : Bool) (exec : Nat → Nat → Bool)
    (h m : Nat) (startTS endTS : String) (wf : Workflow) :
    Option (WorkflowResult × Workflow) :=
  if ¬hasExecutor then none
  else if ¬wf.enabled then none
  else
    let stepResults := runSteps exec h m wf.steps 0
    let wf' := { wf with lastRun := some endTS, runCount := wf.runCount + 1 }
    let allSucceeded :=
      stepResults.all (fun s => s.status = "success" ∨ s.status = "skipped")
    let allFailed := stepResults.all (fun s => s.status = "failed")
    some ({ workflowId := wf.id, workflowName := wf.name
            startedAt := startTS, completedAt := endTS
            steps := stepResults
            status :=
              if allSucceeded then "completed"
              else if allFailed then "failed" else "partial" }, wf')

end WorkflowEngine

-- ===================================================================
-- NeuralKeyManager  (src/services/workflowEngine.ts, class NeuralKeyManager)
-- ===================================================================

/-- Per-credential health record. -/
structure KeyHealth where
  key : String
  failureCount : Nat
  lastFailure : Option Int
  cooldownUntil : Int
  successCount : Nat
deriving DecidableEq, Repr, Inhabited

/-- Manager state: the credential pool and the index of the active one. -/
structure NKM where
  keys : List KeyHealth
  currentIndex : Nat
deriving DecidableEq, Repr

namespace NeuralKeyManager

/-- Definition: `COOLDOWN_MS`: the short cooldown. -/
def COOLDOWN_MS : Int := 60000

/-- Definition: `MAX_FAILURES_BEFORE_LONG_COOLDOWN`: the escalation threshold. -/
def MAX_FAILURES_BEFORE_LONG_COOLDOWN : Nat := 3

/-- Definition: `LONG_COOLDOWN_MS`: the escalated cooldown. -/
def LONG_COOLDOWN_MS : Int := 300000

/-- Definition: `markFailed` at time `now` (the source's two `Date.now()` reads in one
call are the same tick): increments the active credential's failure count,
stamps the failure time, and assigns the short or the escalated cooldown
according to the incremented count.  No-op on an empty pool; an out-of-range
`currentIndex` (which would throw in the source and never arises under the
manager's index invariant) leaves the state unchanged. -/
def markFailed (now : Int) (st : NKM) : NKM :=
  if st.keys = [] then st
  else
    match st.keys[st.currentIndex]? with
    | none => st
    | some k =>
        let fc := k.failureCount + 1
        let cooldown :=
          if fc ≥ MAX_FAILURES_BEFORE_LONG_COOLDOWN then LONG_COOLDOWN_MS
          else COOLDOWN_MS
        { st with
            keys := st.keys.set st.currentIndex
              { k with failureCount := fc, lastFailure := some now
                       cooldownUntil := now + cooldown } }

/-- The health score computed in `rotate` for candidate `k` at time `now`:
base 1000 when not in cooldown (else 0), minus 100 per recorded failure, plus
the success count, minus (only in cooldown) the remaining cooldown
milliseconds divided by 1000. -/
def score (now : Int) (k : KeyHealth) : ℚ :=
  let inCooldown := k.cooldownUntil > now
  let base : ℚ := if inCooldown then 0 else 1000
  let s := base - k.failureCount * 100 + k.successCount
  if inCooldown then s - ((k.cooldownUntil - now : Int) : ℚ) / 1000 else s

/-- The best-candidate loop of `rotate`: scans indices `0 … n-1`, skipping the
current index, and keeps the strictly best score seen so far (so ties keep the
earlier index).  `none` plays the role of the initial `bestIndex = -1` /
`bestScore = -Infinity`. -/
def selectBest (sc : Nat → ℚ) (cur n : Nat) : Option Nat :=
  (List.range n).foldl
    (fun acc i =>
      if i = cur then acc
      else
        match acc with
        | none => some i
        | some b => if sc i > sc b then some i else acc)
    none

/-- The first fallback of `rotate`: among indices other than the current one,
the least index with the smallest `cooldownUntil - now` (strict comparison, so
ties keep the earlier index); `none` when there is no other index. -/
def selectShortestCooldown (now : Int) (keys : List KeyHealth) (cur : Nat) :
    Option Nat :=
  (List.range keys.length).foldl
    (fun acc i =>
      if i = cur then acc
      else
        match acc with
        | none => some i
        | some b =>
            if (keys[i]?.getD default).cooldownUntil - now <
               (keys[b]?.getD default).cooldownUntil - now
            then some i else acc)
    none

/-- Definition: `rotate` at time `now`: returns false and leaves the state untouched on a
pool of at most one credential; otherwise marks the current credential failed,
scores every other candidate, picks the best (ties to pool order), falls back
to the shortest remaining cooldown and then to round-robin when no candidate
was selected, makes the winner current, and returns true. -/
def rotate (now : Int) (st : NKM) : NKM × Bool :=
  if st.keys.length ≤ 1 then (st, false)
  else
    let st1 := markFailed now st
    let sc : Nat → ℚ := fun i => score now (st1.keys[i]?.getD default)
    let best :=
      match selectBest sc st.currentIndex st1.keys.length with
      | some b => some b
      | none => selectShortestCooldown now st1.keys st.currentIndex
    let bestIndex :=
      match best with
      | some b => b
      | none => (st.currentIndex + 1) % st1.keys.length
    ({ st1 with currentIndex := bestIndex }, true)

/-- Iterated `markFailed` at the successive times of `ts` (no intervening
`markSuccess`). -/
def markFailedSeq (ts : List Int) (st : NKM) : NKM :=
  ts.foldl (fun s t => markFailed t s) st

end NeuralKeyManager

-- ===================================================================
-- Concrete scenario data used by witnesses and counterexamples
-- ===================================================================

/-- A full queue of 100 low-priority commands with ids 0 … 99, all carrying an
`onError` callback. -/
def full100 : List QueuedCommand :=
  (List.range 100).map (fun i =>
    { id := i, command := [], priority := .low, addedAt := 0, attempts := 0
      maxRetries := 3, status := .queued, hasOnComplete := false
      hasOnError := true })

/-- Scenario snapshot with cpu 95 % (first alert-scenario snapshot). -/
def snapA : SystemSnapshot :=
  { cpu := 95, memory := 50, disk := 50, battery := some 80 }

/-- Scenario snapshot with cpu 96 % (second alert-scenario snapshot). -/
def snapB : SystemSnapshot :=
  { cpu := 96, memory := 50, disk := 50, battery := some 80 }

/-- Scenario snapshot with cpu 97 % (third alert-scenario snapshot). -/
def snapC : SystemSnapshot :=
  { cpu := 97, memory := 50, disk := 50, battery := some 80 }

/-- A freshly constructed monitor (default rules, callback registered). -/
def monitor0 : SystemMonitorService.MonitorState :=
  { history := [], lastSnapshot := none
    alertRules := SystemMonitorService.defaultAlertRules, hasCallback := true }

/-- A three-step workflow whose middle step carries `onFailure = abort`
(witness input): when that step fails, the last step is never reached. -/
def wfAbort : Workflow :=
  { id := "wf_demo_abort", name := "Demo Abort"
    steps :=
      [{ id := "s1", action := "screenshot", target := none, payload := none
         extra := none, delayMs := some 0, condition := none
         onFailure := some .skip, retries := none },
       { id := "s2", action := "power_control", target := some "lock"
         payload := none, extra := none, delayMs := some 1000
         condition := none, onFailure := some .abort, retries := none },
       { id := "s3", action := "open_app", target := some "chrome"
         payload := none, extra := none, delayMs := none, condition := none
         onFailure := some .skip, retries := none }]
    trigger := "voice", enabled := true, lastRun := none, runCount := 4 }

/-- An executor outcome table on which only step 0 succeeds. -/
def execFirstOnly : Nat → Nat → Bool := fun i _ => i == 0

/-- A one-credential manager state with a fresh credential (witness input). -/
def nkm1 : NKM :=
  { keys := [{ key := "AIzaWitnessKey01", failureCount := 0, lastFailure := none
               cooldownUntil := 0, successCount := 0 }]
    currentIndex := 0 }

/-- A two-credential manager state (witness input for rotation). -/
def nkm2 : NKM :=
  { keys := [{ key := "AIzaWitnessKey01", failureCount := 0
               lastFailure := none, cooldownUntil := 0, successCount := 2 },
             { key := "AIzaWitnessKey02", failureCount := 1
               lastFailure := some 50, cooldownUntil := 0, successCount := 0 }]
    currentIndex := 0 }

-- ===================================================================
-- THEOREMS
-- ===================================================================

section Theorems

open CommandValidator CommandQueue SystemMonitorService WorkflowEngine NeuralKeyManager BridgeAuthenticator

/-- Helper: every action in the risky-action set is a non-empty string. -/
theorem dangerous_action_ne_empty {a : String}
    (h : a ∈ DANGEROUS_ACTIONS) : a ≠ "" := by
  simp only [DANGEROUS_ACTIONS, List.mem_cons, List.not_mem_nil, or_false] at h
  rcases h with h | h | h | h | h | h | h | h <;> subst h <;> decide

/-- C7: `validate` rejects any command whose lowercased combined
action/target/payload contains a deny-listed destructive substring (so
rejection is case-insensitive in the input), rejects any command whose action
is empty, and flags `dangerous = true` for any command whose lowercased action
is in the risky-action set (in particular `shutdown`), whether or not the
command is blocked. -/
theorem C7_validate :
    (∀ action target payload b, b ∈ BLOCKED_PATTERNS →
      strHas (combined action target payload) b = true →
      (validate action target payload).valid = false) ∧
    (∀ action target payload, action.getD "" = "" →
      (validate action target payload).valid = false) ∧
    (∀ action target payload,
      strToLower (action.getD "") ∈ DANGEROUS_ACTIONS →
      (validate action target payload).dangerous = true) := by
  refine ⟨?_, ?_, ?_⟩
  · intro action target payload b hb hhas
    have hsome :
        (BLOCKED_PATTERNS.find?
          (fun p => strHas (combined action target payload) p)).isSome := by
      rw [List.find?_isSome]
      exact ⟨b, hb, hhas⟩
    unfold validate
    cases hfind : BLOCKED_PATTERNS.find?
        (fun p => strHas (combined action target payload) p) with
    | none => rw [hfind] at hsome; simp at hsome
    | some x => rfl
  · intro action target payload hempty
    unfold validate
    cases hfind : BLOCKED_PATTERNS.find?
        (fun p => strHas (combined action target payload) p) with
    | none =>
        show (if strToLower (action.getD "") = "" then
                ({ valid := false, message := "Missing action field."
                   dangerous := false } : ValidationResult)
              else
                { valid := true, message := "OK"
                  dangerous :=
                    DANGEROUS_ACTIONS.contains (strToLower (action.getD "")) }).valid
            = false
        rw [hempty, if_pos (by decide)]
    | some x => rfl
  · intro action target payload hmem
    have hne : strToLower (action.getD "") ≠ "" := dangerous_action_ne_empty hmem
    unfold validate
    cases hfind : BLOCKED_PATTERNS.find?
        (fun p => strHas (combined action target payload) p) with
    | none =>
        show (if strToLower (action.getD "") = "" then
                ({ valid := false, message := "Missing action field."
                   dangerous := false } : ValidationResult)
              else
                { valid := true, message := "OK"
                  dangerous :=
                    DANGEROUS_ACTIONS.contains
                      (strToLower (action.getD "")) }).dangerous
            = true
        rw [if_neg hne]
        exact List.elem_iff.mpr hmem
    | some x => rfl

/-- C7 witness: a command with action `ShutDown` (mixed case, not blocked) is
flagged dangerous. -/
theorem C7_validate_witness :
    (validate (some "ShutDown") none none).dangerous = true :=
  C7_validate.2.2 (some "ShutDown") none none (by decide)

/-- Helper: what one `markFailed` call does to a state whose current index is
in range. -/
theorem markFailed_eq (now : Int) (st : NKM)
    (h : st.currentIndex < st.keys.length) :
    ∀ k, st.keys[st.currentIndex]? = some k →
      markFailed now st =
        { st with
            keys := st.keys.set st.currentIndex
              { k with
                  failureCount := k.failureCount + 1
                  lastFailure := some now
                  cooldownUntil := now +
                    (if k.failureCount + 1 ≥ MAX_FAILURES_BEFORE_LONG_COOLDOWN
                     then LONG_COOLDOWN_MS else COOLDOWN_MS) } } := by
  intro k hk
  have hne : st.keys ≠ [] := by
    intro hnil
    rw [hnil] at h
    exact Nat.not_lt_zero _ h
  unfold markFailed
  rw [if_neg hne, hk]

/-- Helper: the cumulative effect of iterated `markFailed` on the current
credential: the failure count grows by the number of calls, and the cooldown
assigned by the last call is the short or the escalated one according to the
final failure count. -/
theorem markFailedSeq_get (ts : List Int) (st : NKM)
    (hidx : st.currentIndex < st.keys.length) :
    (markFailedSeq ts st).currentIndex = st.currentIndex ∧
    (markFailedSeq ts st).keys.length = st.keys.length ∧
    ∀ k, st.keys[st.currentIndex]? = some k →
      ∃ k', (markFailedSeq ts st).keys[st.currentIndex]? = some k' ∧
        k'.failureCount = k.failureCount + ts.length ∧
        ∀ t, ts.getLast? = some t →
          k'.cooldownUntil = t +
            (if k.failureCount + ts.length ≥ MAX_FAILURES_BEFORE_LONG_COOLDOWN
             then LONG_COOLDOWN_MS else COOLDOWN_MS) := by
  induction ts generalizing st with
  | nil =>
      refine ⟨rfl, rfl, ?_⟩
      intro k hk
      exact ⟨k, hk, by simp, by intro t ht; simp at ht⟩
  | cons t0 rest ih =>
      have hstep : markFailedSeq (t0 :: rest) st =
          markFailedSeq rest (markFailed t0 st) := rfl
      obtain ⟨k, hk⟩ : ∃ k, st.keys[st.currentIndex]? = some k :=
        ⟨st.keys[st.currentIndex], List.getElem?_eq_getElem hidx⟩
      have hmf := markFailed_eq t0 st hidx k hk
      set k1 : KeyHealth :=
        { k with
            failureCount := k.failureCount + 1
            lastFailure := some t0
            cooldownUntil := t0 +
              (if k.failureCount + 1 ≥ MAX_FAILURES_BEFORE_LONG_COOLDOWN
               then LONG_COOLDOWN_MS else COOLDOWN_MS) } with hk1def
      have hcur1 : (markFailed t0 st).currentIndex = st.currentIndex := by
        rw [hmf]
      have hlen1 : (markFailed t0 st).keys.length = st.keys.length := by
        rw [hmf]; exact List.length_set st.keys _ _
      have hidx1 : (markFailed t0 st).currentIndex < (markFailed t0 st).keys.length := by
        rw [hcur1, hlen1]; exact hidx
      have hget1 : (markFailed t0 st).keys[(markFailed t0 st).currentIndex]? = some k1 := by
        rw [hmf]
        exact List.getElem?_set_eq_of_lt k1 hidx
      obtain ⟨ihcur, ihlen, ihget⟩ := ih (markFailed t0 st) hidx1
      obtain ⟨k', hk', hfc, hcool⟩ := ihget k1 hget1
      refine ⟨?_, ?_, ?_⟩
      · rw [hstep, ihcur, hcur1]
      · rw [hstep, ihlen, hlen1]
      · intro k0 hk0
        have hkk : k0 = k := by
          rw [hk] at hk0
          exact (Option.some_inj.mp hk0).symm
        subst hkk
        refine ⟨k', ?_, ?_, ?_⟩
        · rw [hstep, ← hcur1]
          exact hk'
        · rw [hfc, hk1def]
          simp only [List.length_cons]
          omega
        · intro t ht
          cases rest with
          | nil =>
              have hk'k1 : k' = k1 := by
                have : markFailedSeq [] (markFailed t0 st) = markFailed t0 st := rfl
                rw [this] at hk'
                rw [hget1] at hk'
                exact (Option.some_inj.mp hk').symm
              have htt : t = t0 := by
                simp [List.getLast?] at ht
                exact ht.symm
              subst htt
              rw [hk'k1, hk1def]
              simp only [List.length_cons, List.length_nil]
          | cons r rs =>
              have hlast : (r :: rs).getLast? = some t := by
                rw [List.getLast?_cons_cons] at ht
                exact ht
              have := hcool t hlast
              rw [this, hk1def]
              simp only [List.length_cons]
              have hiff : k0.failureCount + 1 + (rs.length + 1)
                    ≥ MAX_FAILURES_BEFORE_LONG_COOLDOWN
                  ↔ k0.failureCount + (rs.length + 1 + 1)
                    ≥ MAX_FAILURES_BEFORE_LONG_COOLDOWN := by omega
              rw [if_congr hiff rfl rfl]

/-- C8: after `N` consecutive `markFailed` calls on the same credential
starting from a zero failure count with no intervening `markSuccess`, where
`N` is at least the escalation threshold (3), the cooldown assigned by the
`N`-th call is the long cooldown (300000 ms after the last call time), not
the short cooldown (60000 ms). -/
theorem C8_escalated_cooldown (st : NKM) (k : KeyHealth) (ts : List Int)
    (t : Int)
    (hidx : st.currentIndex < st.keys.length)
    (hk : st.keys[st.currentIndex]? = some k)
    (hz : k.failureCount = 0)
    (hN : MAX_FAILURES_BEFORE_LONG_COOLDOWN ≤ ts.length)
    (hlast : ts.getLast? = some t) :
    ∃ k', (markFailedSeq ts st).keys[st.currentIndex]? = some k' ∧
      k'.cooldownUntil = t + LONG_COOLDOWN_MS ∧
      k'.cooldownUntil ≠ t + COOLDOWN_MS := by
  obtain ⟨_, _, hget⟩ := markFailedSeq_get ts st hidx
  obtain ⟨k', hk', hfc, hcool⟩ := hget k hk
  have hcd := hcool t hlast
  rw [hz] at hcd
  have hge : 0 + ts.length ≥ MAX_FAILURES_BEFORE_LONG_COOLDOWN := by omega
  rw [if_pos hge] at hcd
  refine ⟨k', hk', hcd, ?_⟩
  rw [hcd]
  intro he
  have h1 : LONG_COOLDOWN_MS = COOLDOWN_MS := by omega
  simp [LONG_COOLDOWN_MS, COOLDOWN_MS] at h1

/-- C8 witness: three consecutive failures on a fresh credential leave it with
the 300000 ms cooldown stamped by the third call (at time 30), not the 60000 ms
one. -/
theorem C8_escalated_cooldown_witness :
    ∃ k', (markFailedSeq [10, 20, 30] nkm1).keys[nkm1.currentIndex]? = some k' ∧
      k'.cooldownUntil = 30 + LONG_COOLDOWN_MS ∧
      k'.cooldownUntil ≠ 30 + COOLDOWN_MS :=
  C8_escalated_cooldown nkm1
    { key := "AIzaWitnessKey01", failureCount := 0, lastFailure := none
      cooldownUntil := 0, successCount := 0 }
    [10, 20, 30] 30 (by decide) (by decide) (by decide) (by decide) (by decide)

/-- Helper: looking up the key just written by `setField` yields the written
value. -/
theorem lookup_setField_self (o : JObj) (k : String) (v : JVal) :
    (setField o k v).lookup k = some v := by
  induction o with
  | nil => simp [setField, List.lookup]
  | cons p rest ih =>
      obtain ⟨k', v'⟩ := p
      by_cases h : k' = k
      · subst h
        simp [setField, List.lookup]
      · have h2 : (k == k') = false := by
          rw [beq_eq_false_iff_ne]
          exact fun he => h he.symm
        simp [setField, if_neg h, List.lookup, h2, ih]

/-- Helper: `setField` does not disturb the binding of any other key. -/
theorem lookup_setField_ne (o : JObj) (k q : String) (v : JVal)
    (h : q ≠ k) : (setField o k v).lookup q = o.lookup q := by
  have h2 : (q == k) = false := by
    rw [beq_eq_false_iff_ne]
    exact h
  induction o with
  | nil => simp [setField, List.lookup, h2]
  | cons p rest ih =>
      obtain ⟨k', v'⟩ := p
      by_cases hk : k' = k
      · subst hk
        simp [setField, List.lookup, h2]
      · simp [setField, if_neg hk, List.lookup, ih]

/-- Helper: the domain of `setField` is the old domain plus the written key. -/
theorem lookup_setField_isSome (o : JObj) (k q : String) (v : JVal) :
    ((setField o k v).lookup q).isSome = true ↔
      q = k ∨ (o.lookup q).isSome = true := by
  by_cases h : q = k
  · subst h
    simp [lookup_setField_self]
  · rw [lookup_setField_ne o k q v h]
    simp [h]

/-- Helper: hex digits of distinct values in `0 … 15` are distinct. -/
theorem hexDigit_inj : ∀ a b : Fin 16,
    hexDigit a.val = hexDigit b.val → a = b := by decide

/-- Helper: the two-character hex rendering of a byte is injective. -/
theorem byteToHex_inj (a b : Fin 256) (h : byteToHex a = byteToHex b) :
    a = b := by
  simp only [byteToHex, List.cons.injEq, and_true] at h
  obtain ⟨h1, h2⟩ := h
  have hd1 : a.val / 16 = b.val / 16 := by
    have ha : a.val / 16 < 16 := by have := a.isLt; omega
    have hb : b.val / 16 < 16 := by have := b.isLt; omega
    have := hexDigit_inj ⟨a.val / 16, ha⟩ ⟨b.val / 16, hb⟩ h1
    exact congrArg Fin.val this
  have hd2 : a.val % 16 = b.val % 16 := by
    have ha : a.val % 16 < 16 := by omega
    have hb : b.val % 16 < 16 := by omega
    have := hexDigit_inj ⟨a.val % 16, ha⟩ ⟨b.val % 16, hb⟩ h2
    exact congrArg Fin.val this
  apply Fin.ext
  omega

/-- Helper: hex-encoded nonces of byte vectors of equal length agree only if
the byte vectors agree. -/
theorem generateNonce_inj (b1 : List (Fin 256)) : ∀ b2 : List (Fin 256),
    b1.length = b2.length → generateNonce b1 = generateNonce b2 → b1 = b2 := by
  induction b1 with
  | nil =>
      intro b2 hlen _
      cases b2 with
      | nil => rfl
      | cons c s => simp at hlen
  | cons a r ih =>
      intro b2 hlen heq
      cases b2 with
      | nil => simp at hlen
      | cons c s =>
          have hdata : (List.map byteToHex (a :: r)).flatten
              = (List.map byteToHex (c :: s)).flatten :=
            congrArg String.data heq
          simp only [List.map_cons, List.flatten_cons] at hdata
          have hlen2 : (byteToHex a).length = (byteToHex c).length := by
            simp [byteToHex]
          obtain ⟨h1, h2⟩ := List.append_inj hdata hlen2
          have hac : a = c := byteToHex_inj a c h1
          subst hac
          have hrs : r = s := by
            apply ih s (by simpa using hlen)
            show generateNonce r = generateNonce s
            unfold generateNonce
            exact congrArg String.mk h2
          rw [hrs]

/-- Helper: a nonce has two hex characters per byte. -/
theorem generateNonce_length (bytes : List (Fin 256)) :
    (generateNonce bytes).length = 2 * bytes.length := by
  induction bytes with
  | nil => rfl
  | cons a r ih =>
      show ((List.map byteToHex (a :: r)).flatten).length = 2 * (a :: r).length
      simp only [List.map_cons, List.flatten_cons, List.length_append,
        List.length_cons]
      have hr : ((List.map byteToHex r).flatten).length = 2 * r.length := ih
      simp [byteToHex] at hr ⊢
      omega

/-- Helper: a resolved bridge token is never the empty string. -/
theorem mkToken_ne_empty (tok env : Option String) (token : String)
    (h : mkToken tok env = some token) : token ≠ "" := by
  unfold mkToken truthy at h
  cases tok with
  | none =>
      cases env with
      | none => simp at h
      | some e =>
          by_cases he : e = ""
          · simp [he] at h
          · simp [he] at h
            rw [← h]
            exact he
  | some s =>
      by_cases hs : s = ""
      · simp [hs] at h
        cases env with
        | none => simp at h
        | some e =>
            by_cases he : e = ""
            · simp [he] at h
            · simp [he] at h
              rw [← h]
              exact he
      · simp [hs] at h
        rw [← h]
        exact hs

/-- C6 counterexample: `wrapCommand` does not preserve every original field:
a command that already carries an `auth_token` field has that field
overwritten by the spread, so its original value is lost. -/
theorem C6_counterexample :
    List.lookup "auth_token"
        (wrapCommand "bridge-token" 1700000000000
          (List.replicate 16 (0 : Fin 256))
          [("auth_token", JVal.str "original"), ("action", JVal.str "open_app")])
      ≠ some (JVal.str "original") := by decide

/-- C6 (amended): `wrapCommand` preserves every original field except any
named `auth_token`, `timestamp` or `nonce` (those are overwritten by the
spread); it sets exactly these three authentication fields — the non-empty
auth token, the millisecond timestamp, and the 32-character hex nonce — and
nonces of two calls differ whenever the 16-byte random draws differ. -/
theorem C6_wrap_amended (tok env : Option String) (token : String)
    (hmk : mkToken tok env = some token)
    (nowMs : Int) (bytes : List (Fin 256)) (hb : bytes.length = 16)
    (cmd : JObj) :
    (∀ q, q ≠ "auth_token" → q ≠ "timestamp" → q ≠ "nonce" →
      (wrapCommand token nowMs bytes cmd).lookup q = cmd.lookup q) ∧
    (wrapCommand token nowMs bytes cmd).lookup "auth_token"
      = some (JVal.str token) ∧
    (wrapCommand token nowMs bytes cmd).lookup "timestamp"
      = some (JVal.num nowMs) ∧
    (wrapCommand token nowMs bytes cmd).lookup "nonce"
      = some (JVal.str (generateNonce bytes)) ∧
    (∀ q, (((wrapCommand token nowMs bytes cmd).lookup q).isSome = true) ↔
      ((cmd.lookup q).isSome = true ∨ q = "auth_token" ∨ q = "timestamp"
        ∨ q = "nonce")) ∧
    token ≠ "" ∧
    generateNonce bytes ≠ "" ∧
    (∀ bytes2 : List (Fin 256), bytes2.length = 16 → bytes ≠ bytes2 →
      generateNonce bytes ≠ generateNonce bytes2) := by
  refine ⟨?_, ?_, ?_, ?_, ?_, ?_, ?_, ?_⟩
  · intro q h1 h2 h3
    unfold wrapCommand
    rw [lookup_setField_ne _ _ _ _ h3, lookup_setField_ne _ _ _ _ h2,
      lookup_setField_ne _ _ _ _ h1]
  · unfold wrapCommand
    rw [lookup_setField_ne _ _ _ _ (by decide),
      lookup_setField_ne _ _ _ _ (by decide), lookup_setField_self]
  · unfold wrapCommand
    rw [lookup_setField_ne _ _ _ _ (by decide), lookup_setField_self]
  · unfold wrapCommand
    rw [lookup_setField_self]
  · intro q
    unfold wrapCommand
    rw [lookup_setField_isSome, lookup_setField_isSome, lookup_setField_isSome]
    tauto
  · exact mkToken_ne_empty tok env token hmk
  · intro h
    have hlen := generateNonce_length bytes
    rw [h, hb] at hlen
    simp [String.length] at hlen
  · intro bytes2 hb2 hne heq
    exact hne (generateNonce_inj bytes bytes2 (by rw [hb, hb2]) heq)

/-- C6 witness: a concrete wrap of an `open_app` command with a valid token
and a fixed byte draw satisfies every conjunct of the amended statement. -/
theorem C6_wrap_amended_witness :
    (∀ q, q ≠ "auth_token" → q ≠ "timestamp" → q ≠ "nonce" →
      (wrapCommand "tok-123456" 1700000000123
          (List.replicate 16 (7 : Fin 256))
          [("action", JVal.str "open_app")]).lookup q
        = List.lookup q [("action", JVal.str "open_app")]) ∧
    (wrapCommand "tok-123456" 1700000000123
        (List.replicate 16 (7 : Fin 256))
        [("action", JVal.str "open_app")]).lookup "auth_token"
      = some (JVal.str "tok-123456") ∧
    (wrapCommand "tok-123456" 1700000000123
        (List.replicate 16 (7 : Fin 256))
        [("action", JVal.str "open_app")]).lookup "timestamp"
      = some (JVal.num 1700000000123) ∧
    (wrapCommand "tok-123456" 1700000000123
        (List.replicate 16 (7 : Fin 256))
        [("action", JVal.str "open_app")]).lookup "nonce"
      = some (JVal.str (generateNonce (List.replicate 16 (7 : Fin 256)))) ∧
    (∀ q, (((wrapCommand "tok-123456" 1700000000123
        (List.replicate 16 (7 : Fin 256))
        [("action", JVal.str "open_app")]).lookup q).isSome = true) ↔
      ((List.lookup q [("action", JVal.str "open_app")]).isSome = true
        ∨ q = "auth_token" ∨ q = "timestamp" ∨ q = "nonce")) ∧
    ("tok-123456" : String) ≠ "" ∧
    generateNonce (List.replicate 16 (7 : Fin 256)) ≠ "" ∧
    (∀ bytes2 : List (Fin 256), bytes2.length = 16 →
      List.replicate 16 (7 : Fin 256) ≠ bytes2 →
      generateNonce (List.replicate 16 (7 : Fin 256)) ≠ generateNonce bytes2) :=
  C6_wrap_amended (some "tok-123456") none "tok-123456" (by decide)
    1700000000123 (List.replicate 16 (7 : Fin 256)) (by decide)
    [("action", JVal.str "open_app")]

/-- Helper: membership in a priority insertion. -/
theorem mem_insertByPriority (item x : QueuedCommand) (q : List QueuedCommand) :
    x ∈ insertByPriority item q ↔ x = item ∨ x ∈ q := by
  induction q with
  | nil => simp [insertByPriority]
  | cons c rest ih =>
      by_cases h : priorityOrder c.priority > priorityOrder item.priority
      · simp only [insertByPriority, if_pos h, List.mem_cons]
        try tauto
      · simp only [insertByPriority, if_neg h, List.mem_cons, ih]
        try tauto

/-- Helper: priority insertion grows the queue by one. -/
theorem length_insertByPriority (item : QueuedCommand)
    (q : List QueuedCommand) :
    (insertByPriority item q).length = q.length + 1 := by
  induction q with
  | nil => rfl
  | cons c rest ih =>
      by_cases h : priorityOrder c.priority > priorityOrder item.priority
      · simp [insertByPriority, if_pos h]
      · simp [insertByPriority, if_neg h, ih]

/-- Helper: when no existing entry has a strictly lower priority tier than the
new item, the insertion point is the tail. -/
theorem insertByPriority_append (item : QueuedCommand)
    (q : List QueuedCommand)
    (h : ∀ c ∈ q, priorityOrder c.priority ≤ priorityOrder item.priority) :
    insertByPriority item q = q ++ [item] := by
  induction q with
  | nil => rfl
  | cons c rest ih =>
      have hc : priorityOrder c.priority ≤ priorityOrder item.priority :=
        h c (List.mem_cons_self c rest)
      have hnot : ¬priorityOrder c.priority > priorityOrder item.priority :=
        Nat.not_lt.mpr hc
      simp only [insertByPriority, if_neg hnot, List.cons_append,
        List.cons.injEq, true_and]
      exact ih (fun x hx => h x (List.mem_cons_of_mem c hx))

/-- Helper: strict stable ordering implies the weak priority ordering. -/
theorem strictOrd_pri_le {a b : QueuedCommand} (h : CommandQueue.StrictOrd a b) :
    CommandQueue.PriOrd a b := by
  rcases h with h | ⟨h, _⟩
  · exact Nat.le_of_lt h
  · exact Nat.le_of_eq h

/-- Helper: inserting an item with a fresh largest id preserves the strict
stable ordering. -/
theorem pairwise_strict_insert (item : QueuedCommand)
    (q : List QueuedCommand)
    (hp : List.Pairwise CommandQueue.StrictOrd q)
    (hfresh : ∀ c ∈ q, c.id < item.id) :
    List.Pairwise CommandQueue.StrictOrd (insertByPriority item q) := by
  induction q with
  | nil => simp [insertByPriority]
  | cons c rest ih =>
      rcases List.pairwise_cons.mp hp with ⟨hc, hrest⟩
      by_cases h : priorityOrder c.priority > priorityOrder item.priority
      · simp only [insertByPriority, if_pos h]
        refine List.pairwise_cons.mpr ⟨?_, hp⟩
        intro x hx
        rcases List.mem_cons.mp hx with hxc | hxr
        · subst hxc
          exact Or.inl h
        · have hle : priorityOrder c.priority ≤ priorityOrder x.priority :=
            strictOrd_pri_le (hc x hxr)
          exact Or.inl (Nat.lt_of_lt_of_le h hle)
      · simp only [insertByPriority, if_neg h]
        refine List.pairwise_cons.mpr
          ⟨?_, ih hrest (fun x hx => hfresh x (List.mem_cons_of_mem c hx))⟩
        intro x hx
        rcases (mem_insertByPriority item x rest).mp hx with hxi | hxr
        · subst hxi
          have hle : priorityOrder c.priority ≤ priorityOrder x.priority :=
            Nat.not_lt.mp h
          rcases Nat.lt_or_eq_of_le hle with hlt | heq
          · exact Or.inl hlt
          · exact Or.inr ⟨heq, hfresh c (List.mem_cons_self c rest)⟩
        · exact hc x hxr

/-- Helper: priority insertion preserves the weak priority ordering of the
queue (with no freshness assumption). -/
theorem pairwise_pri_insert (item : QueuedCommand) (q : List QueuedCommand)
    (hp : List.Pairwise CommandQueue.PriOrd q) :
    List.Pairwise CommandQueue.PriOrd (insertByPriority item q) := by
  induction q with
  | nil => simp [insertByPriority]
  | cons c rest ih =>
      rcases List.pairwise_cons.mp hp with ⟨hc, hrest⟩
      by_cases h : priorityOrder c.priority > priorityOrder item.priority
      · simp only [insertByPriority, if_pos h]
        refine List.pairwise_cons.mpr ⟨?_, hp⟩
        intro x hx
        rcases List.mem_cons.mp hx with hxc | hxr
        · subst hxc
          exact Nat.le_of_lt h
        · exact Nat.le_trans (Nat.le_of_lt h) (hc x hxr)
      · simp only [insertByPriority, if_neg h]
        refine List.pairwise_cons.mpr ⟨?_, ih hrest⟩
        intro x hx
        rcases (mem_insertByPriority item x rest).mp hx with hxi | hxr
        · subst hxi
          exact Nat.not_lt.mp h
        · exact hc x hxr

/-- Helper: in a queue sorted by the weak priority ordering, the last entry
has the maximal (numerically largest, i.e. lowest-priority) tier. -/
theorem pairwise_pri_getLast (l : List QueuedCommand) (e : QueuedCommand)
    (hp : List.Pairwise CommandQueue.PriOrd l) (hl : l.getLast? = some e) :
    ∀ c ∈ l, priorityOrder c.priority ≤ priorityOrder e.priority := by
  induction l with
  | nil => simp at hl
  | cons a rest ih =>
      rcases List.pairwise_cons.mp hp with ⟨ha, hrest⟩
      cases rest with
      | nil =>
          have hae : a = e := by
            simp [List.getLast?] at hl
            exact hl
          intro c hc
          have hca : c = a := by
            rcases List.mem_cons.mp hc with h1 | h1
            · exact h1
            · simp at h1
          rw [hca, hae]
      | cons b rs =>
          rw [List.getLast?_cons_cons] at hl
          intro c hc
          rcases List.mem_cons.mp hc with hca | hcr
          · subst hca
            exact ha e (List.mem_of_getLast?_eq_some hl)
          · exact ih hrest hl c hcr

/-- Helper: the per-priority pending counts of `getStatus` partition the
pending count. -/
theorem byPriority_sum (q : List QueuedCommand) :
    (getStatus q).byPriority .critical + (getStatus q).byPriority .high
      + (getStatus q).byPriority .normal + (getStatus q).byPriority .low
      = (getStatus q).pending := by
  induction q with
  | nil => rfl
  | cons c rest ih =>
      simp only [getStatus, List.filter_cons] at ih ⊢
      by_cases hs : c.status = QStatus.queued
      · cases hp : c.priority <;> simp [hs, hp] <;> omega
      · simp [hs]
        exact ih

/-- Helper: the queue an `enqueue` call leaves behind is a sublist of the
priority insertion it performed (identical, or with the tail popped). -/
theorem enqueue_queue_sublist (q : List QueuedCommand) (command : JObj)
    (p : Priority) (mr : Nat) (hoc hoe : Bool) (idn : Nat) (now : Int) :
    (enqueue q command p mr hoc hoe idn now).queue.Sublist
      (insertByPriority (mkQueued command p mr hoc hoe idn now) q) := by
  simp only [enqueue]
  split
  · split
    · exact List.dropLast_sublist _
    · exact List.Sublist.refl _
  · exact List.Sublist.refl _

/-- Helper: the invariant maintained by any sequence of `enqueue` calls: the
queue stays sorted in the strict stable order (priority tiers non-decreasing,
ids increasing within a tier), all ids stay below the fresh-id counter, and
every entry stays `queued`. -/
theorem runEnqueuesAux_inv (rs : List CommandQueue.EnqReq) :
    ∀ (n : Nat) (q : List QueuedCommand),
    List.Pairwise CommandQueue.StrictOrd q →
    (∀ c ∈ q, c.id < n ∧ c.status = QStatus.queued) →
    List.Pairwise CommandQueue.StrictOrd (runEnqueuesAux rs n q) ∧
    ∀ c ∈ runEnqueuesAux rs n q, c.status = QStatus.queued := by
  induction rs with
  | nil =>
      intro n q hp hq
      exact ⟨hp, fun c hc => (hq c hc).2⟩
  | cons r rest ih =>
      intro n q hp hq
      have hins : List.Pairwise CommandQueue.StrictOrd
          (insertByPriority (mkQueued r.command r.priority r.maxRetries
            r.hasOnComplete r.hasOnError n r.now) q) :=
        pairwise_strict_insert _ q hp (fun c hc => (hq c hc).1)
      have hmem : ∀ c ∈ insertByPriority (mkQueued r.command r.priority
          r.maxRetries r.hasOnComplete r.hasOnError n r.now) q,
          c.id < n + 1 ∧ c.status = QStatus.queued := by
        intro c hc
        rcases (mem_insertByPriority _ c q).mp hc with hci | hcq
        · subst hci
          exact ⟨Nat.lt_succ_self n, rfl⟩
        · rcases hq c hcq with ⟨h1, h2⟩
          exact ⟨Nat.lt_succ_of_lt h1, h2⟩
      have hsub := enqueue_queue_sublist q r.command r.priority r.maxRetries
        r.hasOnComplete r.hasOnError n r.now
      exact ih (n + 1) _ (List.Pairwise.sublist hsub hins)
        (fun c hc => hmem c (hsub.mem hc))

/-- C3: after any sequence of `enqueue` calls on an initially empty queue, the
per-priority breakdown of `getStatus` sums to the pending count, and the order
in which `flush` would attempt delivery (the queued items in queue order) is
sorted by priority tier — every critical item before every high item, and so
on — with ids (assigned in call order) increasing within a tier, i.e. stable
FIFO within each tier. -/
theorem C3_priority_fifo (rs : List CommandQueue.EnqReq) :
    ((getStatus (runEnqueues rs)).byPriority .critical
      + (getStatus (runEnqueues rs)).byPriority .high
      + (getStatus (runEnqueues rs)).byPriority .normal
      + (getStatus (runEnqueues rs)).byPriority .low
      = (getStatus (runEnqueues rs)).pending) ∧
    List.Pairwise CommandQueue.StrictOrd (flushOrder (runEnqueues rs)) := by
  constructor
  · exact byPriority_sum _
  · have h := runEnqueuesAux_inv rs 0 [] List.Pairwise.nil (by simp)
    exact List.Pairwise.sublist (List.filter_sublist _) h.1

/-- C10: enqueueing into a full queue (at `maxSize`) a command whose priority
tier is no higher than that of every queued item — so its insertion point is
the tail — first inserts the new item and then evicts that very item: the new
item's own `onError` receives the overflow notice within the same call, the
returned `QueuedCommand` is not present in the queue afterwards, and every
previously queued item survives unchanged. -/
theorem C10_self_eviction (q : List QueuedCommand) (command : JObj)
    (p : Priority) (mr : Nat) (hoc : Bool) (idn : Nat) (now : Int)
    (hlen : q.length = CommandQueue.maxSize)
    (hle : ∀ c ∈ q, priorityOrder c.priority ≤ priorityOrder p)
    (hfresh : ∀ c ∈ q, c.id ≠ idn) :
    (enqueue q command p mr hoc true idn now).queue = q ∧
    (enqueue q command p mr hoc true idn now).errorCalls
      = [(idn, CommandQueue.overflowMsg)] ∧
    (enqueue q command p mr hoc true idn now).item.id = idn ∧
    (enqueue q command p mr hoc true idn now).item ∉
      (enqueue q command p mr hoc true idn now).queue := by
  have hle2 : ∀ c ∈ q, priorityOrder c.priority
      ≤ priorityOrder (mkQueued command p mr hoc true idn now).priority := hle
  have hins : insertByPriority (mkQueued command p mr hoc true idn now) q
      = q ++ [mkQueued command p mr hoc true idn now] :=
    insertByPriority_append _ q hle2
  have hlen2 : (insertByPriority (mkQueued command p mr hoc true idn now)
      q).length = CommandQueue.maxSize + 1 := by
    rw [length_insertByPriority, hlen]
  have hcond : (insertByPriority (mkQueued command p mr hoc true idn now)
      q).length > CommandQueue.maxSize := by omega
  have hq : enqueue q command p mr hoc true idn now =
      { item := mkQueued command p mr hoc true idn now
        queue := q
        errorCalls := [(idn, CommandQueue.overflowMsg)] } := by
    simp only [enqueue]
    rw [if_pos hcond, hins, List.getLast?_concat]
    simp [mkQueued, List.dropLast_concat]
  refine ⟨by rw [hq], by rw [hq], by simp [hq, mkQueued], ?_⟩
  rw [hq]
  intro hmem
  exact hfresh _ hmem rfl

/-- C10 witness: a full queue of 100 low-priority items receives one more
low-priority command; the new item is the one dropped and notified. -/
theorem C10_self_eviction_witness :
    (enqueue full100 [] .low 3 false true 100 0).queue = full100 ∧
    (enqueue full100 [] .low 3 false true 100 0).errorCalls
      = [(100, CommandQueue.overflowMsg)] ∧
    (enqueue full100 [] .low 3 false true 100 0).item.id = 100 ∧
    (enqueue full100 [] .low 3 false true 100 0).item ∉
      (enqueue full100 [] .low 3 false true 100 0).queue :=
  C10_self_eviction full100 [] .low 3 false 100 0 (by decide) (by decide)
    (by decide)

/-- C1 counterexample: with the queue full of 100 low-priority items
(ids 0 … 99), enqueueing one more low-priority command leaves the queue
exactly as it was, fires the overflow notice on the new item's id (100), and
no pre-existing item has that id — so the evicted item is the newly inserted
one, not the pre-insertion lowest-priority tail, and the eviction cannot have
preceded the insertion (the new item does not survive the call). -/
theorem C1_counterexample :
    (enqueue full100 [] .low 3 false true 100 0).queue = full100 ∧
    (enqueue full100 [] .low 3 false true 100 0).errorCalls
      = [(100, CommandQueue.overflowMsg)] ∧
    ∀ c ∈ full100, c.id ≠ 100 :=
  ⟨by decide, by decide, by decide⟩

/-- C1 (amended): when the queue is at capacity (100) and priority-sorted,
`enqueue` first inserts the new item in priority order and then evicts exactly
one item — the tail of the queue after insertion, which carries the lowest
priority tier present and may be the newly inserted item itself; the evicted
item's `onError` is invoked with the overflow notice when it has one, and the
queue size afterwards is exactly the capacity. -/
theorem C1_overflow_amended (q : List QueuedCommand) (command : JObj)
    (p : Priority) (mr : Nat) (hoc hoe : Bool) (idn : Nat) (now : Int)
    (hlen : q.length = CommandQueue.maxSize)
    (hsorted : List.Pairwise CommandQueue.PriOrd q) :
    ∃ e, (insertByPriority (mkQueued command p mr hoc hoe idn now) q).getLast?
        = some e ∧
      (enqueue q command p mr hoc hoe idn now).queue
        = (insertByPriority (mkQueued command p mr hoc hoe idn now) q).dropLast ∧
      (enqueue q command p mr hoc hoe idn now).queue.length
        = CommandQueue.maxSize ∧
      (∀ c ∈ insertByPriority (mkQueued command p mr hoc hoe idn now) q,
        priorityOrder c.priority ≤ priorityOrder e.priority) ∧
      (e.hasOnError = true →
        (enqueue q command p mr hoc hoe idn now).errorCalls
          = [(e.id, CommandQueue.overflowMsg)]) ∧
      (e.hasOnError = false →
        (enqueue q command p mr hoc hoe idn now).errorCalls = []) := by
  have hlen2 : (insertByPriority (mkQueued command p mr hoc hoe idn now)
      q).length = CommandQueue.maxSize + 1 := by
    rw [length_insertByPriority, hlen]
  have hcond : (insertByPriority (mkQueued command p mr hoc hoe idn now)
      q).length > CommandQueue.maxSize := by omega
  cases hlast : (insertByPriority (mkQueued command p mr hoc hoe idn now)
      q).getLast? with
  | none =>
      rw [List.getLast?_eq_none_iff] at hlast
      rw [hlast] at hlen2
      simp [CommandQueue.maxSize] at hlen2
  | some e =>
      have hq : enqueue q command p mr hoc hoe idn now =
          { item := mkQueued command p mr hoc hoe idn now
            queue := (insertByPriority
              (mkQueued command p mr hoc hoe idn now) q).dropLast
            errorCalls :=
              if e.hasOnError then [(e.id, CommandQueue.overflowMsg)]
              else [] } := by
        simp only [enqueue]
        rw [if_pos hcond, hlast]
      refine ⟨e, rfl, by rw [hq], ?_, ?_, ?_, ?_⟩
      · rw [hq]
        simp only [List.length_dropLast, hlen2]
        rfl
      · exact pairwise_pri_getLast _ e
          (pairwise_pri_insert _ q hsorted) hlast
      · intro he
        rw [hq]
        simp [he]
      · intro he
        rw [hq]
        simp [he]

/-- C1 amended witness: a critical command enqueued into the full queue of
100 low-priority items evicts the pre-existing tail item (id 99). -/
theorem C1_overflow_amended_witness :
    ∃ e, (insertByPriority (mkQueued [] .critical 3 false true 101 5)
        full100).getLast? = some e ∧
      (enqueue full100 [] .critical 3 false true 101 5).queue
        = (insertByPriority (mkQueued [] .critical 3 false true 101 5)
            full100).dropLast ∧
      (enqueue full100 [] .critical 3 false true 101 5).queue.length
        = CommandQueue.maxSize ∧
      (∀ c ∈ insertByPriority (mkQueued [] .critical 3 false true 101 5)
          full100,
        priorityOrder c.priority ≤ priorityOrder e.priority) ∧
      (e.hasOnError = true →
        (enqueue full100 [] .critical 3 false true 101 5).errorCalls
          = [(e.id, CommandQueue.overflowMsg)]) ∧
      (e.hasOnError = false →
        (enqueue full100 [] .critical 3 false true 101 5).errorCalls = []) :=
  C1_overflow_amended full100 [] .critical 3 false true 101 5 (by decide)
    (by
      apply List.pairwise_of_forall_mem_list
      have hall : ∀ a ∈ full100, a.priority = Priority.low := by decide
      intro a ha b hb
      show priorityOrder a.priority ≤ priorityOrder b.priority
      rw [hall a ha, hall b hb])

/-- C4: for every enabled alert rule, once a registered callback is present,
a snapshot whose metric value passes the rule's threshold in the rule's
direction with at least `cooldownMs` elapsed since `lastTriggered` advances
`lastTriggered` to `now` and produces exactly one callback invocation for
that rule, while any snapshot arriving within the cooldown window produces
none for it; in particular the default `cpu_high` rule (threshold 90, above)
fires on cpu 95, is silent on cpu 96 one second later, and fires again on a
snapshot sent after the 60 s cooldown has elapsed. -/
theorem C4_alert_cooldown :
    (∀ snap now r v, r.enabled = true →
      r.cooldownMs ≤ now - r.lastTriggered →
      metricValue snap r.metric = some v →
      passes v r = true →
      checkRule snap now r
        = ({ r with lastTriggered := now }, some (r.id, v))) ∧
    (∀ snap now r, now - r.lastTriggered < r.cooldownMs →
      checkRule snap now r = (r, none)) ∧
    ((processSnapshot monitor0 snapA 1000000).2 = [("cpu_high", 95)] ∧
     (processSnapshot (processSnapshot monitor0 snapA 1000000).1 snapB
        1001000).2 = [] ∧
     (processSnapshot (processSnapshot (processSnapshot monitor0 snapA
        1000000).1 snapB 1001000).1 snapC 1061000).2
        = [("cpu_high", 97)]) := by
  refine ⟨?_, ?_, by decide, by decide, by decide⟩
  · intro snap now r v hen hcd hmv hp
    unfold checkRule
    rw [if_neg (by simp [hen]), if_neg (by omega), hmv]
    simp [hp]
  · intro snap now r hcd
    by_cases hen : r.enabled
    · unfold checkRule
      rw [if_neg (by simp [hen]), if_pos hcd]
    · unfold checkRule
      rw [if_pos (by simp [hen])]

/-- C4 witness: the default `battery_low` rule (threshold 15, below) fires on
a battery reading of 9 % long after its cooldown, stamping the trigger time. -/
theorem C4_alert_cooldown_witness :
    checkRule { cpu := 10, memory := 10, disk := 10, battery := some 9 }
      500000
      { id := "battery_low", metric := .battery, threshold := 15
        direction := .below, message := "Battery critically low: {value}%"
        cooldownMs := 120000, lastTriggered := 0, enabled := true }
      = ({ id := "battery_low", metric := .battery, threshold := 15
           direction := .below, message := "Battery critically low: {value}%"
           cooldownMs := 120000, lastTriggered := 500000, enabled := true },
         some ("battery_low", 9)) :=
  C4_alert_cooldown.1 _ 500000 _ 9 (by decide) (by decide) (by decide)
    (by decide)

/-- C5: running an enabled workflow through `executeWorkflow` always yields a
result; the workflow's `runCount` rises by exactly one and `lastRun` is set —
also when the run is cut short by an aborting step — and the overall status of
the recorded steps is `completed` when every recorded step is
success-or-skipped, otherwise `failed` when every recorded step failed,
otherwise `partial`. -/
theorem C5_execute_status (exec : Nat → Nat → Bool) (h m : Nat)
    (ts1 ts2 : String) (wf : Workflow) (hen : wf.enabled = true) :
    ∃ res wf', executeWorkflow true exec h m ts1 ts2 wf = some (res, wf') ∧
      wf'.runCount = wf.runCount + 1 ∧
      wf'.lastRun = some ts2 ∧
      res.steps = runSteps exec h m wf.steps 0 ∧
      res.status =
        (if ∀ s ∈ res.steps, s.status = "success" ∨ s.status = "skipped" then
          "completed"
        else if ∀ s ∈ res.steps, s.status = "failed" then "failed"
        else "partial") := by
  have hEq : executeWorkflow true exec h m ts1 ts2 wf = some
      ({ workflowId := wf.id, workflowName := wf.name, startedAt := ts1
         completedAt := ts2, steps := runSteps exec h m wf.steps 0
         status :=
           if (runSteps exec h m wf.steps 0).all
               (fun s => s.status = "success" ∨ s.status = "skipped") then
             "completed"
           else if (runSteps exec h m wf.steps 0).all
               (fun s => s.status = "failed") then "failed"
           else "partial" },
       { wf with lastRun := some ts2, runCount := wf.runCount + 1 }) := by
    unfold executeWorkflow
    rw [if_neg (by simp), if_neg (by simp [hen])]
  refine ⟨_, _, hEq, rfl, rfl, rfl, ?_⟩
  have e1 : ((runSteps exec h m wf.steps 0).all
      (fun s => s.status = "success" ∨ s.status = "skipped") = true) ↔
      ∀ s ∈ runSteps exec h m wf.steps 0,
        s.status = "success" ∨ s.status = "skipped" := by
    simp [List.all_eq_true]
  have e2 : ((runSteps exec h m wf.steps 0).all
      (fun s => s.status = "failed") = true) ↔
      ∀ s ∈ runSteps exec h m wf.steps 0, s.status = "failed" := by
    simp [List.all_eq_true]
  by_cases h1 : ∀ s ∈ runSteps exec h m wf.steps 0,
      s.status = "success" ∨ s.status = "skipped"
  · rw [if_pos (e1.mpr h1), if_pos h1]
  · rw [if_neg (fun hb => h1 (e1.mp hb)), if_neg h1]
    by_cases h2 : ∀ s ∈ runSteps exec h m wf.steps 0, s.status = "failed"
    · rw [if_pos (e2.mpr h2), if_pos h2]
    · rw [if_neg (fun hb => h2 (e2.mp hb)), if_neg h2]

/-- C5 witness: the abort-demo workflow (step 2 fails with `abort`) runs,
records two steps (success then failed, status `partial`), and still gets its
`runCount` bumped from 4 and its `lastRun` set. -/
theorem C5_execute_status_witness :
    ∃ res wf', executeWorkflow true execFirstOnly 9 30 "t1" "t2" wfAbort
        = some (res, wf') ∧
      wf'.runCount = wfAbort.runCount + 1 ∧
      wf'.lastRun = some "t2" ∧
      res.steps = runSteps execFirstOnly 9 30 wfAbort.steps 0 ∧
      res.status =
        (if ∀ s ∈ res.steps, s.status = "success" ∨ s.status = "skipped" then
          "completed"
        else if ∀ s ∈ res.steps, s.status = "failed" then "failed"
        else "partial") :=
  C5_execute_status execFirstOnly 9 30 "t1" "t2" wfAbort (by decide)

/-- C9: during workflow execution, a step whose condition holds, whose
attempt loop ends without success, and whose failure policy is `abort` is the
last recorded step — whatever steps follow, none is attempted or recorded —
while with policy `skip` or `retry` (retries being consumed inside the step's
own attempt loop) execution continues with the remaining steps. -/
theorem C9_abort_skip (exec : Nat → Nat → Bool) (h m idx : Nat)
    (s : WorkflowStep) (rest : List WorkflowStep)
    (hcond : ¬(s.condition.isSome ∧ ¬evaluateCondition h m s.condition))
    (hfail : stepSuccess exec idx s = false) :
    (s.onFailure = some .abort →
      runSteps exec h m (s :: rest) idx
        = [{ stepId := s.id, action := s.action, status := "failed" }]) ∧
    ((s.onFailure = some .skip ∨ s.onFailure = some .retry) →
      runSteps exec h m (s :: rest) idx
        = { stepId := s.id, action := s.action, status := "failed" }
            :: runSteps exec h m rest (idx + 1)) := by
  constructor
  · intro hab
    conv_lhs => unfold runSteps
    rw [if_neg hcond]
    simp [hfail, hab]
  · intro hsk
    conv_lhs => unfold runSteps
    rw [if_neg hcond]
    rcases hsk with h1 | h1 <;> simp [hfail, h1]

/-- C9 witness: in the abort-demo workflow, the failing `abort` step `s2`
(index 1) ends the run with itself as the only recorded step of its suffix,
while the same failing step under a `skip` policy would continue. -/
theorem C9_abort_skip_witness :
    (({ id := "s2", action := "power_control", target := some "lock"
        payload := none, extra := none, delayMs := some 1000
        condition := none, onFailure := some .abort
        retries := none } : WorkflowStep).onFailure = some .abort →
      runSteps execFirstOnly 9 30
          [{ id := "s2", action := "power_control", target := some "lock"
             payload := none, extra := none, delayMs := some 1000
             condition := none, onFailure := some .abort, retries := none },
           { id := "s3", action := "open_app", target := some "chrome"
             payload := none, extra := none, delayMs := none
             condition := none, onFailure := some .skip, retries := none }] 1
        = [{ stepId := "s2", action := "power_control"
             status := "failed" }]) ∧
    ((({ id := "s2", action := "power_control", target := some "lock"
         payload := none, extra := none, delayMs := some 1000
         condition := none, onFailure := some .abort
         retries := none } : WorkflowStep).onFailure = some .skip ∨
      ({ id := "s2", action := "power_control", target := some "lock"
         payload := none, extra := none, delayMs := some 1000
         condition := none, onFailure := some .abort
         retries := none } : WorkflowStep).onFailure = some .retry) →
      runSteps execFirstOnly 9 30
          [{ id := "s2", action := "power_control", target := some "lock"
             payload := none, extra := none, delayMs := some 1000
             condition := none, onFailure := some .abort, retries := none },
           { id := "s3", action := "open_app", target := some "chrome"
             payload := none, extra := none, delayMs := none
             condition := none, onFailure := some .skip, retries := none }] 1
        = { stepId := "s2", action := "power_control", status := "failed" }
            :: runSteps execFirstOnly 9 30
              [{ id := "s3", action := "open_app", target := some "chrome"
                 payload := none, extra := none, delayMs := none
                 condition := none, onFailure := some .skip
                 retries := none }] 2) :=
  C9_abort_skip execFirstOnly 9 30 1
    { id := "s2", action := "power_control", target := some "lock"
      payload := none, extra := none, delayMs := some 1000
      condition := none, onFailure := some .abort, retries := none }
    [{ id := "s3", action := "open_app", target := some "chrome"
       payload := none, extra := none, delayMs := none, condition := none
       onFailure := some .skip, retries := none }]
    (by decide) (by decide)

/-- Helper: `markFailed` never changes the pool size or the current index. -/
theorem markFailed_shape (now : Int) (st : NKM) :
    (markFailed now st).keys.length = st.keys.length ∧
    (markFailed now st).currentIndex = st.currentIndex := by
  unfold markFailed
  by_cases h : st.keys = []
  · rw [if_pos h]
    exact ⟨rfl, rfl⟩
  · rw [if_neg h]
    cases hk : st.keys[st.currentIndex]? with
    | none => exact ⟨rfl, rfl⟩
    | some k => exact ⟨List.length_set st.keys _ _, rfl⟩

/-- Helper: the candidate scan of `rotate` either selects nothing — exactly
when every index below `n` is the current one — or selects the least index
attaining the maximal score among the non-current indices. -/
theorem selectBest_cases (sc : Nat → ℚ) (cur : Nat) : ∀ n : Nat,
    (selectBest sc cur n = none ∧ ∀ i < n, i = cur) ∨
    (∃ j, selectBest sc cur n = some j ∧ j < n ∧ j ≠ cur ∧
      ∀ i < n, i ≠ cur → sc i ≤ sc j ∧ (sc i = sc j → j ≤ i)) := by
  intro n
  induction n with
  | zero =>
      left
      exact ⟨rfl, by omega⟩
  | succ n ih =>
      have hstep : selectBest sc cur (n + 1) =
          (if n = cur then selectBest sc cur n else
            match selectBest sc cur n with
            | none => some n
            | some b => if sc n > sc b then some n
                        else selectBest sc cur n) := by
        unfold selectBest
        rw [List.range_succ, List.foldl_append]
        simp only [List.foldl_cons, List.foldl_nil]
      by_cases hc : n = cur
      · have hkeep : selectBest sc cur (n + 1) = selectBest sc cur n := by
          rw [hstep, if_pos hc]
        rcases ih with ⟨h1, h2⟩ | ⟨j, hj, hjn, hjc, hmax⟩
        · left
          refine ⟨by rw [hkeep]; exact h1, ?_⟩
          intro i hi
          rcases Nat.lt_or_ge i n with hin | hin
          · exact h2 i hin
          · have hieq : i = n := by omega
            rw [hieq, hc]
        · right
          refine ⟨j, by rw [hkeep]; exact hj, by omega, hjc, ?_⟩
          intro i hi hic
          rcases Nat.lt_or_ge i n with hin | hin
          · exact hmax i hin hic
          · exfalso
            have hieq : i = n := by omega
            exact hic (by rw [hieq, hc])
      · rcases ih with ⟨h1, h2⟩ | ⟨j, hj, hjn, hjc, hmax⟩
        · right
          refine ⟨n, ?_, Nat.lt_succ_self n, hc, ?_⟩
          · rw [hstep, if_neg hc, h1]
          · intro i hi hic
            rcases Nat.lt_or_ge i n with hin | hin
            · exact absurd (h2 i hin) hic
            · have hieq : i = n := by omega
              subst hieq
              exact ⟨le_refl _, fun _ => le_refl _⟩
        · by_cases hgt : sc n > sc j
          · right
            refine ⟨n, ?_, Nat.lt_succ_self n, hc, ?_⟩
            · rw [hstep, if_neg hc, hj]
              simp [hgt]
            · intro i hi hic
              rcases Nat.lt_or_ge i n with hin | hin
              · have hle := (hmax i hin hic).1
                refine ⟨le_trans hle (le_of_lt hgt), ?_⟩
                intro heq
                exact absurd heq (ne_of_lt (lt_of_le_of_lt hle hgt))
              · have hieq : i = n := by omega
                subst hieq
                exact ⟨le_refl _, fun _ => le_refl _⟩
          · right
            refine ⟨j, ?_, by omega, hjc, ?_⟩
            · rw [hstep, if_neg hc, hj]
              simp [hgt]
            · intro i hi hic
              rcases Nat.lt_or_ge i n with hin | hin
              · exact hmax i hin hic
              · have hieq : i = n := by omega
                subst hieq
                exact ⟨not_lt.mp hgt, fun _ => by omega⟩

/-- C2: `rotate` on a pool of at most one credential returns false and leaves
the state untouched; on a pool of two or more credentials it first applies
`markFailed` to the current credential, then makes current the non-current
candidate whose health score (1000 if out of cooldown else 0, minus
`failureCount × 100`, plus `successCount`, minus remaining cooldown ÷ 1000
when in cooldown) is maximal, ties resolved to the earliest pool index, and
returns true; the shortest-cooldown and round-robin fallbacks apply only when
that scan selects nothing, which never happens with two or more credentials. -/
theorem C2_rotate (now : Int) (st : NKM)
    (hidx : st.currentIndex < st.keys.length) :
    (st.keys.length ≤ 1 → rotate now st = (st, false)) ∧
    (2 ≤ st.keys.length →
      (rotate now st).2 = true ∧
      (rotate now st).1.keys = (markFailed now st).keys ∧
      (rotate now st).1.currentIndex < st.keys.length ∧
      (rotate now st).1.currentIndex ≠ st.currentIndex ∧
      (∀ i < st.keys.length, i ≠ st.currentIndex →
        score now ((markFailed now st).keys[i]?.getD default)
          ≤ score now ((markFailed now st).keys[(rotate now
              st).1.currentIndex]?.getD default) ∧
        (score now ((markFailed now st).keys[i]?.getD default)
            = score now ((markFailed now st).keys[(rotate now
                st).1.currentIndex]?.getD default) →
          (rotate now st).1.currentIndex ≤ i))) := by
  constructor
  · intro hle
    unfold rotate
    rw [if_pos hle]
  · intro h2
    have hlen1 : (markFailed now st).keys.length = st.keys.length :=
      (markFailed_shape now st).1
    have hcand : ∃ i, i < (markFailed now st).keys.length
        ∧ i ≠ st.currentIndex := by
      by_cases h0 : st.currentIndex = 0
      · exact ⟨1, by omega, by omega⟩
      · exact ⟨0, by omega, fun he => h0 he.symm⟩
    rcases selectBest_cases
        (fun i => score now ((markFailed now st).keys[i]?.getD default))
        st.currentIndex (markFailed now st).keys.length with
      ⟨h1, hall⟩ | ⟨j, hj, hjn, hjc, hmax⟩
    · exfalso
      obtain ⟨i, hi1, hi2⟩ := hcand
      exact hi2 (hall i hi1)
    · have hrot : rotate now st
          = ({ markFailed now st with currentIndex := j }, true) := by
        unfold rotate
        rw [if_neg (by omega)]
        simp only []
        rw [hj]
      rw [hrot]
      refine ⟨rfl, rfl, ?_, hjc, ?_⟩
      · show j < st.keys.length
        omega
      · intro i hi hic
        have hmi := hmax i (by omega) hic
        exact ⟨hmi.1, fun he => hmi.2 he⟩

/-- C2 witness: rotating a two-credential pool away from a healthy current
credential marks it failed and selects the other credential (index 1). -/
theorem C2_rotate_witness :
    (nkm2.keys.length ≤ 1 → rotate 1000 nkm2 = (nkm2, false)) ∧
    (2 ≤ nkm2.keys.length →
      (rotate 1000 nkm2).2 = true ∧
      (rotate 1000 nkm2).1.keys = (markFailed 1000 nkm2).keys ∧
      (rotate 1000 nkm2).1.currentIndex < nkm2.keys.length ∧
      (rotate 1000 nkm2).1.currentIndex ≠ nkm2.currentIndex ∧
      (∀ i < nkm2.keys.length, i ≠ nkm2.currentIndex →
        score 1000 ((markFailed 1000 nkm2).keys[i]?.getD default)
          ≤ score 1000 ((markFailed 1000 nkm2).keys[(rotate 1000
              nkm2).1.currentIndex]?.getD default) ∧
        (score 1000 ((markFailed 1000 nkm2).keys[i]?.getD default)
            = score 1000 ((markFailed 1000 nkm2).keys[(rotate 1000
                nkm2).1.currentIndex]?.getD default) →
          (rotate 1000 nkm2).1.currentIndex ≤ i))) :=
  C2_rotate 1000 nkm2 (by decide)

end Theorems

end Jerry
